import Mathlib

/-!
Shallow embedding of the art-of-yoga backend's upload lifecycle
(`routines/models.py`, `routines/views.py`, `core/storage.py`) and of the
achievement-criteria evaluation engine (`routines/views.py`,
`ClientAchievementViewSet`), together with proofs settling the frozen claims
about them.

Machine conventions: Django `PositiveIntegerField` columns are modelled as
`Nat`; timestamps as `Int` seconds; Python `None`-able arguments as `Option`;
Python exceptions as explicit `Except`/error values.
-/

namespace ArtOfYoga

/-- Python exceptions that can be raised in the flows under study. -/
inductive PyErr where
  /-- `TypeError` (bad call signature, e.g. a missing required positional
  argument or an unexpected keyword argument). -/
  | typeError (msg : String)
  /-- an exception raised by the Supabase storage client. -/
  | storageError (msg : String)
  /-- Django `ValidationError` (raised by `MediaAsset.clean`). -/
  | validationError (msg : String)
  /-- Python `IndexError` (out-of-range list indexing such as `split('/')[1]`). -/
  | indexError
deriving DecidableEq, Repr

/-- `str(e)` on an exception, as used by the views to record error text. -/
def PyErr.text : PyErr → String
  | .typeError m => m
  | .storageError m => m
  | .validationError m => m
  | .indexError => "list index out of range"

/-- Round `a / b` to the nearest integer, ties to even — the rounding IEEE
754 binary64 applies to an exact quotient whose destination mantissa is
the integer part (`a` scaled so the true quotient lies in the mantissa
range). -/
def divRoundEven (a b : Nat) : Nat :=
  let q := a / b
  let r := a % b
  if 2 * r < b then q
  else if b < 2 * r then q + 1
  else if q % 2 = 0 then q else q + 1

/-- Least `s ≥ s₀` with `cond s`, searched with explicit fuel so that the
definition evaluates inside the kernel (the fuel is never exhausted for
the bounded inputs the theorems use). -/
def searchLeast (cond : Nat → Bool) : Nat → Nat → Nat
  | 0, s => s
  | fuel + 1, s => if cond s then s else searchLeast cond fuel (s + 1)

/-- Scale for the binary64 quotient `u / t` (for `u, t > 0` in the range
of interest): the least `s` with `2^52 · t ≤ u · 2^s`, i.e. the shift
putting the true quotient's mantissa `u · 2^s / t` into `[2^52, 2^53)`. -/
def b64DivScale (u t : Nat) : Nat :=
  searchLeast (fun s => 2 ^ 52 * t ≤ u * 2 ^ s) 200 0

/-- Mantissa of the correctly rounded binary64 quotient `u / t`: the value
of the double is `b64DivMantissa u t / 2 ^ b64DivScale u t`. -/
def b64DivMantissa (u t : Nat) : Nat :=
  divRoundEven (u * 2 ^ b64DivScale u t) t

/-- Number of low bits the binary64 product `(m / 2^s) * 100` must drop:
the least `d` with `100 · m < 2^(53+d)`, so that `100 · m / 2^d` fits the
53-bit mantissa. -/
def b64Times100DropBits (m : Nat) : Nat :=
  searchLeast (fun d => 100 * m < 2 ^ (53 + d)) 200 0

/-- Mantissa of the correctly rounded binary64 product `(m / 2^s) * 100`:
the value of the double is
`b64Times100Mantissa m * 2 ^ b64Times100DropBits m / 2 ^ s`. -/
def b64Times100Mantissa (m : Nat) : Nat :=
  divRoundEven (100 * m) (2 ^ b64Times100DropBits m)

/-- Python `int((u / t) * 100)` for `t > 0`: IEEE 754 binary64 division of
`u` by `t` (round to nearest, ties to even), binary64 multiplication of
the result by `100.0`, then truncation toward zero.  Both roundings are
modelled exactly over naturals (the operands of interest are positive and
normal, so this is the full semantics); `u = 0` gives `0.0` at once. -/
def pyFloatPercent (u t : Nat) : Nat :=
  if u = 0 then 0
  else
    let s := b64DivScale u t
    let m := b64DivMantissa u t
    let d := b64Times100DropBits m
    let m2 := b64Times100Mantissa m
    m2 * 2 ^ d / 2 ^ s

/-- `routines.models.UploadProgress`: one row of the upload-progress tracker
(the fields the specified behaviour reads or writes; `metadata`,
`created_at` and `updated_at` are never consulted by the claims). -/
structure UploadProgress where
  upload_id : String
  instructor : Nat
  file_name : String
  file_path : Option String
  asset_type : String
  total_size : Nat
  uploaded_size : Nat
  status : String
  error_message : Option String
  completed_at : Option Int
deriving DecidableEq, Repr

namespace UploadProgress

/-- `UploadProgress.progress_percentage` (models.py 286-291):
`0` if `total_size == 0`, else
`min(100, int((self.uploaded_size / self.total_size) * 100))` where the
division and the multiplication are IEEE 754 binary64 operations,
modelled exactly by `pyFloatPercent`.  The float result is NOT always the
exact floor `⌊100 · uploaded_size / total_size⌋`: when `100·u/t` is an
exact integer the correctly rounded intermediate can land just below it
and the truncation comes out one low (at `u = 29, t = 100` the doubles
give `28.999999999999996`, so the method returns 28 where the exact floor
is 29). -/
def progress_percentage (p : UploadProgress) : Nat :=
  if p.total_size = 0 then 0
  else min 100 (pyFloatPercent p.uploaded_size p.total_size)

/-- Body of `UploadProgress.update_progress` (models.py 293-305), reached
when the Python call binds successfully.  `if status:` and
`if error_message:` are Python truthiness tests: `None` and the empty
string are both falsy.  Entering `completed` stamps `completed_at` with the
current time. -/
def update_progress (p : UploadProgress) (uploaded_size : Nat)
    (status : Option String) (error_message : Option String) (now : Int) :
    UploadProgress :=
  let p1 := { p with uploaded_size := uploaded_size }
  let p2 := match status with
    | some s => if s = "" then p1 else { p1 with status := s }
    | none => p1
  let p3 := match error_message with
    | some m => if m = "" then p2 else { p2 with error_message := some m }
    | none => p2
  if status = some "completed" then { p3 with completed_at := some now } else p3

end UploadProgress

/-- Python call semantics for `progress.update_progress(...)`.
`update_progress(self, uploaded_size, status=None, error_message=None)`
declares `uploaded_size` as a required positional-or-keyword parameter, so a
call that omits it raises `TypeError`, and a call passing a keyword the
function does not declare (the views pass `file_path=...`) also raises
`TypeError`; `extra_kwargs` lists such undeclared keywords at a call site. -/
def callUpdateProgress (p : UploadProgress) (uploaded_size : Option Nat)
    (status : Option String) (error_message : Option String)
    (extra_kwargs : List String) (now : Int) : Except PyErr UploadProgress :=
  if extra_kwargs.isEmpty then
    match uploaded_size with
    | none => .error (.typeError "update_progress missing required argument uploaded_size")
    | some u => .ok (p.update_progress u status error_message now)
  else .error (.typeError "update_progress got an unexpected keyword argument")

/-- Python `s.startswith(pre)`: `pre` is a prefix of `s` (character-wise). -/
def pyStartswith (s pre : String) : Bool :=
  pre.toList.isPrefixOf s.toList

/-- Helper for `pySplit`: split a character list on a separator, keeping
empty pieces, as Python `str.split(sep)` does. -/
def pySplitAux (sep : Char) : List Char → List (List Char)
  | [] => [[]]
  | c :: cs =>
    match pySplitAux sep cs with
    | [] => [[]]
    | g :: gs => if c = sep then [] :: g :: gs else (c :: g) :: gs

/-- Python `s.split(sep)` for a one-character separator. -/
def pySplit (s : String) (sep : Char) : List String :=
  (pySplitAux sep s.toList).map String.mk

/-- The Supabase storage collaborator, abstracted as the outcomes of the
client calls the repository makes (each may raise). -/
structure StorageEnv where
  /-- `client.storage.from_(bucket).get_public_url(path)`. -/
  get_public_url : String → Except PyErr String
  /-- `client.storage.from_(bucket).create_signed_url(path, expires_in)`
  via `SupabaseStorage._get_signed_url`. -/
  create_signed_url : String → Except PyErr String
  /-- `client.storage.from_(bucket).upload(path, data, headers)`. -/
  upload : String → Except PyErr Unit

/-- The metadata dictionary returned by `SupabaseStorage.verify_upload`
(storage.py 227-233).  It has no `size` key — callers reading
`metadata.get('size', 0)` always obtain 0. -/
structure VerifyMeta where
  file_path : String
  url : String
  thumbnail_url : Option String
  upload_id : String
  verified_at : Int
deriving DecidableEq, Repr

namespace SupabaseStorage

/-- `SupabaseStorage._generate_file_path` (storage.py 33-38): path is
`instructor_id/asset_type/timestamp_sanitizedname`, keeping only
alphanumerics, `.`, `_`, `-` and space from the file name. -/
def generate_file_path (file_name : String) (instructor_id : Nat)
    (asset_type : String) (timestamp : String) : String :=
  let safe := String.mk (file_name.toList.filter
    (fun c => c.isAlphanum || c = '.' || c = '_' || c = '-' || c = ' '))
  toString instructor_id ++ "/" ++ asset_type ++ "/" ++ timestamp ++ "_" ++ safe

/-- `SupabaseStorage.verify_upload` (storage.py 195-239).  The whole body sits
in a `try` whose `except Exception` returns `(False, None)`; the ownership
check `file_path.startswith(f"{instructor_id}/")` (modelled by
`pyStartswith`) runs before any storage
access, so a badly-prefixed path is rejected no matter what the storage
contains.  On the success path the code reads `file_path.split('/')[1]`
(safe here: the prefix guarantees a `/`) and issues a thumbnail URL for
image/video segments. -/
def verify_upload (env : StorageEnv) (upload_id : String) (file_path : String)
    (instructor_id : Nat) (now : Int) : Bool × Option VerifyMeta :=
  if ¬ pyStartswith file_path (toString instructor_id ++ "/") then (false, none)
  else
    match env.get_public_url file_path with
    | .error _ => (false, none)
    | .ok _ =>
      match env.create_signed_url file_path with
      | .error _ => (false, none)
      | .ok signed_url =>
        match (pySplit file_path '/').get? 1 with
        | none => (false, none)
        | some seg =>
          if seg = "image" || seg = "video" then
            match env.create_signed_url file_path with
            | .error _ => (false, none)
            | .ok thumb =>
              (true, some ⟨file_path, signed_url, some thumb, upload_id, now⟩)
          else (true, some ⟨file_path, signed_url, none, upload_id, now⟩)

/-- The metadata dictionary returned by `SupabaseStorage.upload_file`
(storage.py 83-90), restricted to the keys its caller reads. -/
structure UploadMeta where
  file_name : String
  file_size : Nat
  url : String
  thumbnail_url : Option String
deriving DecidableEq, Repr

/-- `SupabaseStorage.upload_file` (storage.py 45-92): derive the storage
path, upload the bytes (may raise), sign a read URL and — for image/video —
a thumbnail URL, and return `(file_path, metadata)` with
`file_size = len(file_data)`. -/
def upload_file (env : StorageEnv) (file_data_len : Nat) (file_name : String)
    (instructor_id : Nat) (asset_type : String) (timestamp : String) :
    Except PyErr (String × UploadMeta) :=
  let file_path := generate_file_path file_name instructor_id asset_type timestamp
  match env.upload file_path with
  | .error e => .error e
  | .ok _ =>
    match env.create_signed_url file_path with
    | .error e => .error e
    | .ok signed =>
      if asset_type = "image" || asset_type = "video" then
        match env.create_signed_url file_path with
        | .error e => .error e
        | .ok thumb => .ok (file_path, ⟨file_name, file_data_len, signed, some thumb⟩)
      else .ok (file_path, ⟨file_name, file_data_len, signed, none⟩)

end SupabaseStorage

/-- `os.path.basename`: the part after the last `/`. -/
def basename (path : String) : String :=
  (pySplit path '/').getLastD path

/-- `os.path.splitext(s)[0]`: everything before the last `.`, where leading
dots of the name never count as an extension separator. -/
def splitextRoot (s : String) : String :=
  let cs := s.toList
  let lead := cs.takeWhile (fun c => c = '.')
  let rest := cs.drop lead.length
  match rest.reverse.dropWhile (fun c => c ≠ '.') with
  | [] => s
  | _ :: tl => String.mk (lead ++ tl.reverse)

/-- `routines.models.MediaAsset`: one media-asset row (the fields the claims
consult). -/
structure MediaAssetRec where
  name : String
  asset_type : String
  file_path : Option String
  url : String
  thumbnail_url : Option String
  file_size : Nat
  instructor : Nat
deriving DecidableEq, Repr

/-- `MediaAsset.clean` (models.py 49-56), run by `save` for new rows:
raise `ValidationError` when a configured per-type cap exists and
`file_size` exceeds it.  `max_sizes` models `settings.MAX_FILE_SIZES`. -/
def mediaAssetClean (max_sizes : String → Option Nat) (a : MediaAssetRec) :
    Except PyErr Unit :=
  match max_sizes a.asset_type with
  | some m => if a.file_size > m
      then .error (.validationError "File size exceeds maximum allowed size")
      else .ok ()
  | none => .ok ()

namespace MediaAsset

/-- `MediaAsset.create_from_upload` (models.py 81-100): upload through the
storage service (may raise), then create the row with the name stripped of
directory and extension and the metadata's url/thumbnail/size. -/
def create_from_upload (env : StorageEnv) (max_sizes : String → Option Nat)
    (file_data_len : Nat) (file_name : String) (instructor : Nat)
    (asset_type : String) (timestamp : String) : Except PyErr MediaAssetRec :=
  match SupabaseStorage.upload_file env file_data_len file_name instructor asset_type timestamp with
  | .error e => .error e
  | .ok (file_path, md) =>
    let a : MediaAssetRec :=
      { name := splitextRoot (basename file_name)
        asset_type := asset_type
        file_path := some file_path
        url := md.url
        thumbnail_url := md.thumbnail_url
        file_size := md.file_size
        instructor := instructor }
    match mediaAssetClean max_sizes a with
    | .error e => .error e
    | .ok _ => .ok a

end MediaAsset

/-- How a view invocation ends: a crafted DRF `Response`, or an exception
escaping the view (which the framework maps to a generic 500). -/
inductive HttpOutcome where
  | ok200
  | badRequest400 (msg : String)
  | serverError500 (msg : String)
  | unhandled (e : PyErr)
deriving DecidableEq, Repr

/-- Observable result of one upload view invocation: the tracker row as
left in the database, the media-asset rows created (asset rows persist even
when a later statement in the request raises), and the HTTP outcome. -/
structure ViewResult where
  progress : UploadProgress
  created : List MediaAssetRec
  outcome : HttpOutcome
deriving DecidableEq, Repr

namespace MediaAssetViewSet

/-- `MediaAssetViewSet.update_progress` (views.py 173-205), on the path
where the row was found for this instructor.  The request's
`uploaded_size` is fed through Python's `uploaded_size or
progress.uploaded_size`, so an absent (`None`) or `0` value keeps the
stored size; `status` and `error_message` are forwarded as given. -/
def update_progress (p : UploadProgress) (uploaded_size : Option Nat)
    (status : Option String) (error_message : Option String) (now : Int) :
    Except PyErr UploadProgress :=
  let effective := match uploaded_size with
    | none => p.uploaded_size
    | some 0 => p.uploaded_size
    | some n => n
  callUpdateProgress p (some effective) status error_message [] now

/-- `MediaAssetViewSet.verify_upload` (views.py 249-324), from the point
where the tracker row `p` was found for instructor `instructor_id`
(the missing-field and missing-row guards return 400/404 before this).
The flow: move the tracker to `verifying` with `uploaded_size :=
total_size`; inside `try`, ask storage to verify; on failure call
`progress.update_progress(status='failed', error_message=...)` — a call
that omits the required `uploaded_size` argument; on success create the
`MediaAsset` (with `file_size = metadata.get('size', 0) = 0`) and call
`progress.update_progress(status='completed', file_path=file_path)` — a
call passing the undeclared keyword `file_path` and omitting
`uploaded_size`.  The `except Exception` handler itself calls
`progress.update_progress(status='failed', error_message=str(e))`,
again without `uploaded_size`. -/
def verify_upload (env : StorageEnv) (max_sizes : String → Option Nat)
    (p : UploadProgress) (upload_id : String) (file_path : String)
    (instructor_id : Nat) (now : Int) : ViewResult :=
  match callUpdateProgress p (some p.total_size) (some "verifying") none [] now with
  | .error e => ⟨p, [], .unhandled e⟩
  | .ok p1 =>
    match SupabaseStorage.verify_upload env upload_id file_path instructor_id now with
    | (false, _) =>
      match callUpdateProgress p1 none (some "failed")
          (some "Upload verification failed") [] now with
      | .ok p2 => ⟨p2, [], .badRequest400 "Upload verification failed"⟩
      | .error e =>
        match callUpdateProgress p1 none (some "failed") (some e.text) [] now with
        | .ok p3 => ⟨p3, [], .serverError500 ("Error creating media asset: " ++ e.text)⟩
        | .error e2 => ⟨p1, [], .unhandled e2⟩
    | (true, md) =>
      match md with
      | none => ⟨p1, [], .unhandled .indexError⟩
      | some m =>
        match (pySplit file_path '/').get? 1 with
        | none =>
          match callUpdateProgress p1 none (some "failed") (some PyErr.indexError.text) [] now with
          | .ok p3 => ⟨p3, [], .serverError500 ("Error creating media asset: " ++ PyErr.indexError.text)⟩
          | .error e2 => ⟨p1, [], .unhandled e2⟩
        | some seg =>
          let asset : MediaAssetRec :=
            { name := splitextRoot (basename file_path)
              asset_type := seg
              file_path := some file_path
              url := m.url
              thumbnail_url := m.thumbnail_url
              file_size := 0
              instructor := instructor_id }
          match mediaAssetClean max_sizes asset with
          | .error e =>
            match callUpdateProgress p1 none (some "failed") (some e.text) [] now with
            | .ok p3 => ⟨p3, [], .serverError500 ("Error creating media asset: " ++ e.text)⟩
            | .error e2 => ⟨p1, [], .unhandled e2⟩
          | .ok _ =>
            match callUpdateProgress p1 none (some "completed") none ["file_path"] now with
            | .ok p2 => ⟨p2, [asset], .ok200⟩
            | .error e =>
              match callUpdateProgress p1 none (some "failed") (some e.text) [] now with
              | .ok p3 => ⟨p3, [asset], .serverError500 ("Error creating media asset: " ++ e.text)⟩
              | .error e2 => ⟨p1, [asset], .unhandled e2⟩

/-- `UploadProgress.create_for_traditional_upload` (models.py 342-355):
fresh tracker in the default status `pending` with `uploaded_size = 0`. -/
def create_for_traditional_upload (upload_id : String) (file_name : String)
    (instructor : Nat) (asset_type : String) (file_size : Nat) : UploadProgress :=
  { upload_id := upload_id
    instructor := instructor
    file_name := file_name
    file_path := none
    asset_type := asset_type
    total_size := file_size
    uploaded_size := 0
    status := "pending"
    error_message := none
    completed_at := none }

/-- `MediaAssetViewSet.perform_create` (views.py 326-393), traditional
upload path, from the point where the file passed the type/size
validations and `asset_type` was resolved.  The flow: create a `pending`
tracker; inside `try`, move it to `uploading` with the read byte count,
create the asset through `MediaAsset.create_from_upload`, then call
`progress.update_progress(status='completed', file_path=asset.file_path)`
— undeclared keyword `file_path`, no `uploaded_size`.  The `except`
handler calls `progress.update_progress(status='failed',
error_message=str(e))` — again without `uploaded_size` — and then
re-raises. -/
def perform_create (env : StorageEnv) (max_sizes : String → Option Nat)
    (upload_id : String) (file_name : String) (file_size : Nat)
    (file_data_len : Nat) (instructor : Nat) (asset_type : String)
    (timestamp : String) (now : Int) : ViewResult :=
  let p0 := create_for_traditional_upload upload_id file_name instructor asset_type file_size
  match callUpdateProgress p0 (some file_data_len) (some "uploading") none [] now with
  | .error e => ⟨p0, [], .unhandled e⟩
  | .ok p1 =>
    match MediaAsset.create_from_upload env max_sizes file_data_len file_name
        instructor asset_type timestamp with
    | .error e =>
      match callUpdateProgress p1 none (some "failed") (some e.text) [] now with
      | .ok p3 => ⟨p3, [], .unhandled e⟩
      | .error e2 => ⟨p1, [], .unhandled e2⟩
    | .ok asset =>
      match callUpdateProgress p1 none (some "completed") none ["file_path"] now with
      | .ok p2 => ⟨p2, [asset], .ok200⟩
      | .error e =>
        match callUpdateProgress p1 none (some "failed") (some e.text) [] now with
        | .ok p3 => ⟨p3, [asset], .unhandled e⟩
        | .error e2 => ⟨p1, [asset], .unhandled e2⟩

end MediaAssetViewSet

/-- `routines.models.ExerciseProgress`: one logged completion record.
`completed_at` is an `Int` timestamp in seconds; the calendar day used by
the consistency check is its floor-division by 86400 (the fixed-timezone
day truncation done by `progress.dates('completed_at', 'day')`). -/
structure ProgressRecord where
  exercise : Option Nat
  breathing_exercise : Option Nat
  meditation_session : Option Nat
  completed_at : Int
  duration_seconds : Nat
  difficulty_rating : Option Nat
deriving DecidableEq, Repr

/-- The calendar day of a completion record. -/
def ProgressRecord.day (r : ProgressRecord) : Int :=
  r.completed_at.fdiv 86400

/-- A well-typed criteria dictionary: the keys the evaluator reads, each
`none` when absent from the JSON document. -/
structure CriteriaDoc where
  ctype : Option String
  required_count : Option Nat
  exercise_type : Option String
  required_duration : Option Nat
  time_period : Option String
  required_days : Option Nat
  consecutive : Option Bool
  required_difficulty : Option Nat
  routine_id : Option Nat
deriving DecidableEq, Repr

/-- An empty criteria dictionary (every key absent). -/
def CriteriaDoc.empty : CriteriaDoc :=
  ⟨none, none, none, none, none, none, none, none, none⟩

/-- The `Achievement.criteria` JSON column as seen by
`check_achievements`: either a string that fails `json.loads`
(`JSONDecodeError`), a JSON value that is not an object (so
`criteria.get('type')` raises `AttributeError`), or a well-typed
criteria dictionary. -/
inductive StoredCriteria where
  | invalidJsonStr
  | jsonNonDict
  | doc (d : CriteriaDoc)
deriving DecidableEq, Repr

/-- Exceptions the achievement pass can meet while handling one
achievement's criteria. -/
inductive EvalExc where
  /-- `json.JSONDecodeError` from `json.loads` on a malformed string. -/
  | jsonDecodeError
  /-- `TypeError` (caught by the loop's `except` clause). -/
  | typeError
  /-- `AttributeError`: `.get` on a decoded non-dict value — NOT caught. -/
  | attributeError
  /-- Django `FieldError`: `ExerciseProgress` has no `combined_routine`
  column, so the `combined_routine` branch's query raises — NOT caught. -/
  | fieldError
deriving DecidableEq, Repr

/-- The loop `except (json.JSONDecodeError, TypeError)` (views.py 632):
exactly these two exception classes are caught; `AttributeError` and
`FieldError` propagate and abort the whole pass. -/
def caughtByLoop : EvalExc → Bool
  | .jsonDecodeError => true
  | .typeError => true
  | .attributeError => false
  | .fieldError => false

namespace ClientAchievementViewSet

/-- `_check_exercise_count` (views.py 663-679): count the records,
optionally restricted to one sub-kind (`exercise_type` defaults to
`'all'`; an unrecognized value returns `False`); satisfied iff
`count >= required_count` (default 0). -/
def check_exercise_count (progress : List ProgressRecord) (doc : CriteriaDoc) : Bool :=
  let required := doc.required_count.getD 0
  let et := doc.exercise_type.getD "all"
  if et = "all" then decide (progress.length ≥ required)
  else if et = "exercise" then
    decide ((progress.filter (fun r => r.exercise.isSome)).length ≥ required)
  else if et = "breathing" then
    decide ((progress.filter (fun r => r.breathing_exercise.isSome)).length ≥ required)
  else if et = "meditation" then
    decide ((progress.filter (fun r => r.meditation_session.isSome)).length ≥ required)
  else false

/-- Sum of `duration_seconds` (`progress.aggregate(total=Sum(...))`,
with `or 0` for the empty case). -/
def sumDuration (progress : List ProgressRecord) : Nat :=
  (progress.map (fun r => r.duration_seconds)).sum

/-- `_check_duration` (views.py 681-702): when a (truthy) `time_period` is
given, keep only records with `completed_at >= now - {1 day, 1 week,
30 days}` (an unrecognized period returns `False`); satisfied iff the
summed duration is at least `required_duration` (default 0). -/
def check_duration (progress : List ProgressRecord) (now : Int) (doc : CriteriaDoc) : Bool :=
  let required := doc.required_duration.getD 0
  match doc.time_period with
  | some tp =>
    if tp = "" then decide (sumDuration progress ≥ required)
    else if tp = "day" then
      decide (sumDuration (progress.filter (fun r => r.completed_at ≥ now - 86400)) ≥ required)
    else if tp = "week" then
      decide (sumDuration (progress.filter (fun r => r.completed_at ≥ now - 7 * 86400)) ≥ required)
    else if tp = "month" then
      decide (sumDuration (progress.filter (fun r => r.completed_at ≥ now - 30 * 86400)) ≥ required)
    else false
  | none => decide (sumDuration progress ≥ required)

/-- The Python `for` loop of `_check_consistency` (views.py 721-730) over
the tail of the sorted date list: `cur` is `current_streak`, `m` is
`max_streak`, `prev` the previous date; a date exactly one day after the
previous extends the streak, anything else resets it to 1. -/
def streakLoop : Int → Nat → Nat → List Int → Nat
  | _, _, m, [] => m
  | prev, cur, m, d :: t =>
    if d = prev + 1 then streakLoop d (cur + 1) (max m (cur + 1)) t
    else streakLoop d 1 m t

/-- The distinct completion days, ascending: `progress.dates('completed_at',
'day')` (distinct days) followed by the view's `sorted(...)`. -/
def uniqueSortedDays (progress : List ProgressRecord) : List Int :=
  List.insertionSort (· ≤ ·) ((progress.map ProgressRecord.day).dedup)

/-- `_check_consistency` (views.py 704-734): no records ⇒ `False`; with
`consecutive` set, run the streak loop over the sorted distinct days and
compare the maximum streak to `required_days` (default 0); otherwise
compare the number of distinct days. -/
def check_consistency (progress : List ProgressRecord) (doc : CriteriaDoc) : Bool :=
  let required := doc.required_days.getD 0
  let consecutive := doc.consecutive.getD false
  if progress.isEmpty then false
  else
    let dates := uniqueSortedDays progress
    if consecutive then
      match dates with
      | [] => false
      | d :: t => decide (streakLoop d 1 1 t ≥ required)
    else decide (dates.length ≥ required)

/-- `_check_difficulty` (views.py 736-743): count records whose (non-null)
`difficulty_rating` is at least `required_difficulty` (default 0);
satisfied iff that count is at least `required_count` (default 1). -/
def check_difficulty (progress : List ProgressRecord) (doc : CriteriaDoc) : Bool :=
  let requiredDiff := doc.required_difficulty.getD 0
  let requiredCount := doc.required_count.getD 1
  decide ((progress.filter (fun r => match r.difficulty_rating with
    | some d => decide (d ≥ requiredDiff)
    | none => false)).length ≥ requiredCount)

/-- `_check_achievement_criteria` (views.py 642-661): a falsy `type` gives
`False`; known types dispatch to their checker; an unknown type gives
`False`.  The `combined_routine` branch (views.py 745-759) filters on a
`combined_routine` field that the `ExerciseProgress` model does not have,
so its query raises `FieldError`. -/
def check_achievement_criteria (progress : List ProgressRecord) (now : Int)
    (doc : CriteriaDoc) : Except EvalExc Bool :=
  match doc.ctype with
  | none => .ok false
  | some t =>
    if t = "" then .ok false
    else if t = "exercise_count" then .ok (check_exercise_count progress doc)
    else if t = "duration" then .ok (check_duration progress now doc)
    else if t = "consistency" then .ok (check_consistency progress doc)
    else if t = "difficulty" then .ok (check_difficulty progress doc)
    else if t = "combined_routine" then .error .fieldError
    else .ok false

/-- Decoding plus evaluation of one achievement's stored criteria
(views.py 622-623): a malformed JSON string raises `JSONDecodeError`, a
decoded non-dict raises `AttributeError` at `criteria.get('type')`, and a
dictionary is evaluated. -/
def evalStoredCriteria (progress : List ProgressRecord) (now : Int) :
    StoredCriteria → Except EvalExc Bool
  | .invalidJsonStr => .error .jsonDecodeError
  | .jsonNonDict => .error .attributeError
  | .doc d => check_achievement_criteria progress now d

/-- One active `Achievement` row as seen by the awarding pass. -/
structure AchievementRec where
  id : Nat
  criteria : StoredCriteria
deriving DecidableEq, Repr

/-- A `(client, achievement)` pair recorded as a `ClientAchievement` row. -/
abbrev AwardPair := Nat × Nat

/-- `ClientAchievement.objects.filter(client=..., achievement=...).exists()`. -/
def awardExists (awards : List AwardPair) (client aid : Nat) : Bool :=
  awards.any (fun w => w.1 = client && w.2 = aid)

/-- Result of one `check_achievements` pass: the awards created by the pass
in order, the full award table afterwards, and — when an uncaught
exception aborted the loop — the exception (created rows persist even
then; only the HTTP response is lost). -/
structure RunResult where
  newAwards : List AwardPair
  awards : List AwardPair
  error : Option EvalExc
deriving DecidableEq, Repr

/-- The awarding loop of `check_achievements` (views.py 617-635): for each
active achievement, skip it when an award for `(client, achievement)`
already exists; otherwise decode and evaluate the criteria —
`JSONDecodeError`/`TypeError` are logged and skipped, any other exception
aborts the pass — and on a satisfied evaluation create the award. -/
def check_achievements (client : Nat) (progress : List ProgressRecord) (now : Int) :
    List AchievementRec → List AwardPair → RunResult
  | [], awards => ⟨[], awards, none⟩
  | a :: rest, awards =>
    if awardExists awards client a.id then
      check_achievements client progress now rest awards
    else
      match evalStoredCriteria progress now a.criteria with
      | .error e =>
        if caughtByLoop e then check_achievements client progress now rest awards
        else ⟨[], awards, some e⟩
      | .ok false => check_achievements client progress now rest awards
      | .ok true =>
        let r := check_achievements client progress now rest (awards ++ [(client, a.id)])
        ⟨(client, a.id) :: r.newAwards, r.awards, r.error⟩

end ClientAchievementViewSet

/-! ### Concrete fixtures used by the closed theorems and witnesses -/

/-- A storage collaborator on which every call succeeds (the object exists,
URLs sign fine). -/
def envOk : StorageEnv :=
  ⟨fun _ => .ok "https://pub", fun _ => .ok "https://signed", fun _ => .ok ()⟩

/-- A storage collaborator whose object upload raises. -/
def envBoom : StorageEnv :=
  ⟨fun _ => .ok "https://pub", fun _ => .ok "https://signed",
   fun _ => .error (.storageError "boom")⟩

/-- A storage collaborator whose `get_public_url` call raises. -/
def envGetBoom : StorageEnv :=
  ⟨fun _ => .error (.storageError "get boom"), fun _ => .ok "https://signed",
   fun _ => .ok ()⟩

/-- A `MAX_FILE_SIZES` configuration with no cap configured. -/
def noCaps : String → Option Nat := fun _ => none

/-- A tracker row for instructor 7's pending direct upload. -/
def pDirect : UploadProgress :=
  { upload_id := "u1", instructor := 7, file_name := "a.png"
    file_path := some "7/image/a.png", asset_type := "image"
    total_size := 100, uploaded_size := 0, status := "pending"
    error_message := none, completed_at := none }

/-- A tracker row that already reached the terminal status `completed`. -/
def pCompleted : UploadProgress :=
  { pDirect with status := "completed", uploaded_size := 100, completed_at := some 50 }

/-- A tracker row that already reached the terminal status `failed`. -/
def pFailed : UploadProgress :=
  { pDirect with status := "failed", error_message := some "earlier failure" }

/-- A duration criteria document over the trailing week
(`{"type": "duration", "required_duration": rq, "time_period": "week"}`). -/
def weekDoc (rq : Nat) : CriteriaDoc :=
  { CriteriaDoc.empty with
      ctype := some "duration", required_duration := some rq, time_period := some "week" }

/-- One logged completion record. -/
def rec1 : ProgressRecord := ⟨some 1, none, none, 0, 60, none⟩

/-- An achievement criteria satisfied by any single record
(`{"type": "exercise_count", "required_count": 1}`). -/
def okDoc : CriteriaDoc :=
  { CriteriaDoc.empty with ctype := some "exercise_count", required_count := some 1 }

open ClientAchievementViewSet in
/-- An achievement batch whose middle element's criteria is valid JSON but
not an object. -/
def batchNonDict : List AchievementRec :=
  [⟨10, .doc okDoc⟩, ⟨11, .jsonNonDict⟩, ⟨12, .doc okDoc⟩]

open ClientAchievementViewSet in
/-- An achievement whose criteria string fails `json.loads`. -/
def achBadStr : AchievementRec := ⟨13, .invalidJsonStr⟩

open ClientAchievementViewSet in
/-- An achievement with a well-formed, satisfiable criteria document. -/
def achGood : AchievementRec := ⟨14, .doc okDoc⟩

/-! ### Helper lemmas -/

/-- `update_progress` always stores exactly the `uploaded_size` it was
called with; the later status/error/completed-at updates do not touch it. -/
theorem update_progress_uploaded_size (p : UploadProgress) (u : Nat)
    (st em : Option String) (now : Int) :
    (p.update_progress u st em now).uploaded_size = u := by
  cases st <;> cases em <;>
    simp only [UploadProgress.update_progress] <;>
    (repeat' split) <;> rfl

open ClientAchievementViewSet in
/-- The existence check of the awarding loop agrees with membership of the
`(client, achievement)` pair in the award table. -/
theorem awardExists_iff (aw : List AwardPair) (c i : Nat) :
    awardExists aw c i = true ↔ (c, i) ∈ aw := by
  simp only [awardExists, List.any_eq_true, Bool.and_eq_true, decide_eq_true_eq]
  constructor
  · rintro ⟨⟨a, b⟩, hm, rfl, rfl⟩
    exact hm
  · intro hm
    exact ⟨(c, i), hm, rfl, rfl⟩

open ClientAchievementViewSet in
/-- The award table after a pass is the initial table followed by exactly
the pass's newly created awards. -/
theorem run_awards_eq (c : Nat) (pr : List ProgressRecord) (now : Int) :
    ∀ (l : List AchievementRec) (aw : List AwardPair),
    (check_achievements c pr now l aw).awards
      = aw ++ (check_achievements c pr now l aw).newAwards := by
  intro l
  induction l with
  | nil => intro aw; simp [check_achievements]
  | cons a rest ih =>
    intro aw
    simp only [check_achievements]
    by_cases hex : awardExists aw c a.id = true
    · rw [if_pos hex]
      exact ih aw
    · rw [if_neg hex]
      cases heval : evalStoredCriteria pr now a.criteria with
      | error e =>
        dsimp only
        by_cases hc : caughtByLoop e = true
        · rw [if_pos hc]
          exact ih aw
        · rw [if_neg hc]
          simp
      | ok b =>
        cases b with
        | false => exact ih aw
        | true =>
          dsimp only
          rw [ih (aw ++ [(c, a.id)])]
          simp
open ClientAchievementViewSet in
/-- Every award created by a pass is absent from the initial table, and the
pass creates no `(client, achievement)` pair twice. -/
theorem run_new_fresh (c : Nat) (pr : List ProgressRecord) (now : Int) :
    ∀ (l : List AchievementRec) (aw : List AwardPair),
    (∀ p ∈ (check_achievements c pr now l aw).newAwards, p ∉ aw)
    ∧ (check_achievements c pr now l aw).newAwards.Nodup := by
  intro l
  induction l with
  | nil => intro aw; simp [check_achievements]
  | cons a rest ih =>
    intro aw
    simp only [check_achievements]
    by_cases hex : awardExists aw c a.id = true
    · rw [if_pos hex]
      exact ih aw
    · rw [if_neg hex]
      cases heval : evalStoredCriteria pr now a.criteria with
      | error e =>
        dsimp only
        by_cases hc : caughtByLoop e = true
        · rw [if_pos hc]
          exact ih aw
        · rw [if_neg hc]
          simp
      | ok b =>
        cases b with
        | false => exact ih aw
        | true =>
          dsimp only
          obtain ⟨ihf, ihn⟩ := ih (aw ++ [(c, a.id)])
          refine ⟨?_, ?_⟩
          · intro p hp
            simp only [List.mem_cons] at hp
            rcases hp with rfl | hp
            · rw [awardExists_iff] at hex
              exact hex
            · have := ihf p hp
              simp only [List.mem_append, not_or] at this
              exact this.1
          · refine List.nodup_cons.mpr ⟨?_, ihn⟩
            intro hmem
            have := ihf _ hmem
            simp at this

open ClientAchievementViewSet in
/-- Re-running a pass over the table it produced changes nothing: every
achievement is now either already awarded, unsatisfied as before, skipped
for the same caught exception, or hits the same uncaught exception at the
same point — so the second pass creates no award, keeps the table, and
ends the same way. -/
theorem run_idempotent (c : Nat) (pr : List ProgressRecord) (now : Int) :
    ∀ (l : List AchievementRec) (aw : List AwardPair),
    check_achievements c pr now l (check_achievements c pr now l aw).awards
      = ⟨[], (check_achievements c pr now l aw).awards,
          (check_achievements c pr now l aw).error⟩ := by
  intro l
  induction l with
  | nil => intro aw; rfl
  | cons x rest ih =>
    intro aw
    by_cases hex : awardExists aw c x.id = true
    · have hA1 : check_achievements c pr now (x :: rest) aw
          = check_achievements c pr now rest aw := by
        simp only [check_achievements]
        rw [if_pos hex]
      rw [hA1]
      have hex2 : awardExists (check_achievements c pr now rest aw).awards c x.id
          = true := by
        rw [awardExists_iff] at hex ⊢
        rw [run_awards_eq]
        exact List.mem_append_left _ hex
      have hstep : check_achievements c pr now (x :: rest)
            (check_achievements c pr now rest aw).awards
          = check_achievements c pr now rest
            (check_achievements c pr now rest aw).awards := by
        simp only [check_achievements]
        rw [if_pos hex2]
      rw [hstep]
      exact ih aw
    · cases heval : evalStoredCriteria pr now x.criteria with
      | error e =>
        by_cases hc : caughtByLoop e = true
        · have hA1 : check_achievements c pr now (x :: rest) aw
              = check_achievements c pr now rest aw := by
            simp only [check_achievements]
            rw [if_neg hex, heval]
            dsimp only
            rw [if_pos hc]
          rw [hA1]
          by_cases hex2 : awardExists (check_achievements c pr now rest aw).awards
              c x.id = true
          · have hstep : check_achievements c pr now (x :: rest)
                  (check_achievements c pr now rest aw).awards
                = check_achievements c pr now rest
                  (check_achievements c pr now rest aw).awards := by
              simp only [check_achievements]
              rw [if_pos hex2]
            rw [hstep]
            exact ih aw
          · have hstep : check_achievements c pr now (x :: rest)
                  (check_achievements c pr now rest aw).awards
                = check_achievements c pr now rest
                  (check_achievements c pr now rest aw).awards := by
              simp only [check_achievements]
              rw [if_neg hex2, heval]
              dsimp only
              rw [if_pos hc]
            rw [hstep]
            exact ih aw
        · have hA1 : check_achievements c pr now (x :: rest) aw
              = ⟨[], aw, some e⟩ := by
            simp only [check_achievements]
            rw [if_neg hex, heval]
            dsimp only
            rw [if_neg hc]
          rw [hA1]
          dsimp only
          exact hA1
      | ok b =>
        cases b with
        | false =>
          have hA1 : check_achievements c pr now (x :: rest) aw
              = check_achievements c pr now rest aw := by
            simp only [check_achievements]
            rw [if_neg hex, heval]
          rw [hA1]
          by_cases hex2 : awardExists (check_achievements c pr now rest aw).awards
              c x.id = true
          · have hstep : check_achievements c pr now (x :: rest)
                  (check_achievements c pr now rest aw).awards
                = check_achievements c pr now rest
                  (check_achievements c pr now rest aw).awards := by
              simp only [check_achievements]
              rw [if_pos hex2]
            rw [hstep]
            exact ih aw
          · have hstep : check_achievements c pr now (x :: rest)
                  (check_achievements c pr now rest aw).awards
                = check_achievements c pr now rest
                  (check_achievements c pr now rest aw).awards := by
              simp only [check_achievements]
              rw [if_neg hex2, heval]
            rw [hstep]
            exact ih aw
        | true =>
          have hA1 : check_achievements c pr now (x :: rest) aw
              = ⟨(c, x.id) ::
                  (check_achievements c pr now rest (aw ++ [(c, x.id)])).newAwards,
                 (check_achievements c pr now rest (aw ++ [(c, x.id)])).awards,
                 (check_achievements c pr now rest (aw ++ [(c, x.id)])).error⟩ := by
            simp only [check_achievements]
            rw [if_neg hex, heval]
          rw [hA1]
          dsimp only
          have hex2 : awardExists
              (check_achievements c pr now rest (aw ++ [(c, x.id)])).awards c x.id
              = true := by
            rw [awardExists_iff, run_awards_eq]
            exact List.mem_append_left _ (List.mem_append_right _ (by simp))
          have hstep : check_achievements c pr now (x :: rest)
                (check_achievements c pr now rest (aw ++ [(c, x.id)])).awards
              = check_achievements c pr now rest
                (check_achievements c pr now rest (aw ++ [(c, x.id)])).awards := by
            simp only [check_achievements]
            rw [if_pos hex2]
          rw [hstep]
          exact ih (aw ++ [(c, x.id)])

/-- Round-to-nearest never falls below the truncated quotient. -/
theorem divRoundEven_ge (a b : Nat) : a / b ≤ divRoundEven a b := by
  simp only [divRoundEven]
  split_ifs <;> omega

/-- Round-to-nearest exceeds the truncated quotient by at most one. -/
theorem divRoundEven_le (a b : Nat) : divRoundEven a b ≤ a / b + 1 := by
  simp only [divRoundEven]
  split_ifs <;> omega

/-- The fuel-bounded search finds the least witness: if `cond` holds within
fuel, the result satisfies `cond`, is at most the given witness, and
nothing below it (from the start) satisfies `cond`. -/
theorem searchLeast_spec (cond : Nat → Bool) :
    ∀ (fuel s k : Nat), k ≤ fuel → cond (s + k) = true →
    cond (searchLeast cond fuel s) = true
    ∧ searchLeast cond fuel s ≤ s + k
    ∧ ∀ j, s ≤ j → j < searchLeast cond fuel s → cond j = false := by
  intro fuel
  induction fuel with
  | zero =>
    intro s k hk hc
    obtain rfl : k = 0 := Nat.le_zero.mp hk
    simp only [searchLeast]
    exact ⟨by simpa using hc, by omega, fun j h1 h2 => by omega⟩
  | succ fuel ih =>
    intro s k hk hc
    simp only [searchLeast]
    cases hcs : cond s with
    | true =>
      rw [if_pos rfl]
      exact ⟨hcs, by omega, fun j h1 h2 => by omega⟩
    | false =>
      rw [if_neg (by simp)]
      have hk1 : k ≠ 0 := by
        rintro rfl
        rw [Nat.add_zero] at hc
        rw [hcs] at hc
        exact Bool.false_ne_true hc
      obtain ⟨k', rfl⟩ : ∃ k', k = k' + 1 := ⟨k - 1, by omega⟩
      have hc' : cond (s + 1 + k') = true := by
        rw [show s + 1 + k' = s + (k' + 1) by omega]
        exact hc
      obtain ⟨h1, h2, h3⟩ := ih (s + 1) k' (by omega) hc'
      refine ⟨h1, by omega, ?_⟩
      intro j hj1 hj2
      rcases Nat.eq_or_lt_of_le hj1 with rfl | hj
      · exact hcs
      · exact h3 j (by omega) hj2

/-- Over-reported uploads still truncate to at least 100 under the exact
binary64 semantics: for `0 < t < u` within the `PositiveIntegerField`
range, the true quotient exceeds `1 + 1/t`, the division's rounding error
cannot pull the mantissa back to the scale point, and the multiplication
by 100 drops at most 7 bits — so `int((u/t)*100) ≥ 100`. -/
theorem pyFloatPercent_ge_100 (u t : Nat) (ht : t ≠ 0) (hlt : t < u)
    (hub : u < 2 ^ 31) : 100 ≤ pyFloatPercent u t := by
  have hu0 : u ≠ 0 := by omega
  have ht1 : 0 < t := by omega
  have hds : b64DivScale u t
      = searchLeast (fun s => decide (2 ^ 52 * t ≤ u * 2 ^ s)) 200 0 := rfl
  have hw : (fun s => decide (2 ^ 52 * t ≤ u * 2 ^ s)) (0 + 83) = true := by
    simp only [Nat.zero_add, decide_eq_true_eq]
    calc 2 ^ 52 * t ≤ 2 ^ 52 * 2 ^ 31 :=
          Nat.mul_le_mul_left _ (by omega)
      _ = 1 * 2 ^ 83 := by norm_num
      _ ≤ u * 2 ^ 83 := Nat.mul_le_mul_right _ (by omega)
  obtain ⟨h1, h2, h3⟩ :=
    searchLeast_spec (fun s => decide (2 ^ 52 * t ≤ u * 2 ^ s)) 200 0 83
      (by omega) hw
  rw [← hds] at h1 h2 h3
  have hcond : 2 ^ 52 * t ≤ u * 2 ^ b64DivScale u t := by simpa using h1
  have hs1 : 1 ≤ b64DivScale u t := by
    by_contra hcon
    have hz : b64DivScale u t = 0 := by omega
    rw [hz] at hcond
    simp only [pow_zero, Nat.mul_one] at hcond
    have h52 : u < 2 ^ 52 * t :=
      calc u < 2 ^ 31 := hub
        _ ≤ 2 ^ 52 := by norm_num
        _ = 2 ^ 52 * 1 := by ring
        _ ≤ 2 ^ 52 * t := Nat.mul_le_mul_left _ ht1
    omega
  obtain ⟨s', hs'⟩ : ∃ s', b64DivScale u t = s' + 1 :=
    ⟨b64DivScale u t - 1, by omega⟩
  have hminfail : ¬ (2 ^ 52 * t ≤ u * 2 ^ s') := by
    have := h3 s' (by omega) (by omega)
    simpa using this
  -- the quotient's scale point P and the exact-quotient bounds
  rw [hs'] at hcond
  have hPt : 2 ^ 21 * t < 2 ^ (s' + 1) := by
    have hup : u * 2 ^ (s' + 1) < 2 ^ 31 * 2 ^ (s' + 1) :=
      mul_lt_mul_of_pos_right hub (Nat.two_pow_pos _)
    have : 2 ^ 52 * t < 2 ^ 31 * 2 ^ (s' + 1) := lt_of_le_of_lt hcond hup
    have h52 : (2 : Nat) ^ 52 = 2 ^ 31 * 2 ^ 21 := by norm_num
    rw [h52, Nat.mul_assoc] at this
    exact Nat.lt_of_mul_lt_mul_left this
  have hult : u * 2 ^ (s' + 1) < 2 ^ 53 * t := by
    have : u * 2 ^ (s' + 1) = 2 * (u * 2 ^ s') := by ring
    rw [this]
    have h53 : (2 : Nat) ^ 53 * t = 2 * (2 ^ 52 * t) := by ring
    rw [h53]
    omega
  -- mantissa of the rounded quotient
  have hmq : u * 2 ^ (s' + 1) / t ≤ b64DivMantissa u t := by
    rw [b64DivMantissa, hs']
    exact divRoundEven_ge _ _
  have hql : 2 ^ (s' + 1) + 2 ^ 21 ≤ u * 2 ^ (s' + 1) / t := by
    have hmono : (t + 1) * 2 ^ (s' + 1) / t ≤ u * 2 ^ (s' + 1) / t :=
      Nat.div_le_div_right (Nat.mul_le_mul_right _ (by omega))
    have hsplit : (t + 1) * 2 ^ (s' + 1) / t
        = 2 ^ (s' + 1) + 2 ^ (s' + 1) / t := by
      rw [show (t + 1) * 2 ^ (s' + 1) = t * 2 ^ (s' + 1) + 2 ^ (s' + 1) by ring]
      exact Nat.mul_add_div ht1 _ _
    have hPdiv : 2 ^ 21 ≤ 2 ^ (s' + 1) / t := by
      rw [Nat.le_div_iff_mul_le ht1]
      omega
    omega
  have hm_lb : 2 ^ (s' + 1) + 2 ^ 21 ≤ b64DivMantissa u t := le_trans hql hmq
  have hm_ub : b64DivMantissa u t ≤ 2 ^ 53 := by
    have hqu : u * 2 ^ (s' + 1) / t < 2 ^ 53 := by
      rw [Nat.div_lt_iff_lt_mul ht1]
      calc u * 2 ^ (s' + 1) < 2 ^ 53 * t := hult
        _ = 2 ^ 53 * t := rfl
    have := divRoundEven_le (u * 2 ^ (s' + 1)) t
    rw [b64DivMantissa, hs']
    omega
  -- the drop-bit count of the multiplication by 100 is at most 7
  have hdd : b64Times100DropBits (b64DivMantissa u t)
      = searchLeast
          (fun d => decide (100 * b64DivMantissa u t < 2 ^ (53 + d))) 200 0 := rfl
  have hw7 : (fun d => decide (100 * b64DivMantissa u t < 2 ^ (53 + d))) (0 + 7)
      = true := by
    simp only [Nat.zero_add, decide_eq_true_eq]
    calc 100 * b64DivMantissa u t ≤ 100 * 2 ^ 53 :=
          Nat.mul_le_mul_left _ hm_ub
      _ < 2 ^ 60 := by norm_num
  obtain ⟨-, hd7, -⟩ :=
    searchLeast_spec
      (fun d => decide (100 * b64DivMantissa u t < 2 ^ (53 + d))) 200 0 7
      (by omega) hw7
  rw [← hdd] at hd7
  have hDle : (2 : Nat) ^ b64Times100DropBits (b64DivMantissa u t) ≤ 128 := by
    calc (2 : Nat) ^ b64Times100DropBits (b64DivMantissa u t)
        ≤ 2 ^ 7 := Nat.pow_le_pow_right (by omega) (by omega)
      _ = 128 := by norm_num
  -- the product mantissa keeps the value at or above 100 · 2^(s'+1)
  have hprod : 100 * 2 ^ (s' + 1)
      ≤ b64Times100Mantissa (b64DivMantissa u t)
          * 2 ^ b64Times100DropBits (b64DivMantissa u t) := by
    have hDpos : 0 < (2 : Nat) ^ b64Times100DropBits (b64DivMantissa u t) :=
      Nat.two_pow_pos _
    have hdm := Nat.div_add_mod (100 * b64DivMantissa u t)
      (2 ^ b64Times100DropBits (b64DivMantissa u t))
    have hrlt := Nat.mod_lt (100 * b64DivMantissa u t) hDpos
    have hge : 100 * b64DivMantissa u t
          / 2 ^ b64Times100DropBits (b64DivMantissa u t)
        ≤ b64Times100Mantissa (b64DivMantissa u t) := by
      rw [b64Times100Mantissa]
      exact divRoundEven_ge _ _
    have hmul : 100 * b64DivMantissa u t
          / 2 ^ b64Times100DropBits (b64DivMantissa u t)
          * 2 ^ b64Times100DropBits (b64DivMantissa u t)
        ≤ b64Times100Mantissa (b64DivMantissa u t)
          * 2 ^ b64Times100DropBits (b64DivMantissa u t) :=
      Nat.mul_le_mul_right _ hge
    have h21 : (2 : Nat) ^ 21 = 2097152 := by norm_num
    -- linear reasoning over the folded product atoms
    set D := (2 : Nat) ^ b64Times100DropBits (b64DivMantissa u t) with hD
    set Q := 100 * b64DivMantissa u t / D with hQ
    set R := 100 * b64DivMantissa u t % D with hR
    set M2 := b64Times100Mantissa (b64DivMantissa u t) with hM2
    set P := (2 : Nat) ^ (s' + 1) with hP
    have hQD : D * Q + R = 100 * b64DivMantissa u t := hdm
    have hQM : Q * D ≤ M2 * D := hmul
    have hmP : P + 2097152 ≤ b64DivMantissa u t := by
      rw [← h21]; exact hm_lb
    nlinarith [hQD, hQM, hrlt, hDle, hmP, hDpos]
  -- conclude through the final truncation
  rw [pyFloatPercent, if_neg hu0]
  simp only
  rw [hs']
  rw [Nat.le_div_iff_mul_le (Nat.two_pow_pos _)]
  calc 100 * 2 ^ (s' + 1) ≤ _ := hprod
    _ = _ := rfl

/-! ### Claims -/

/-- C2: the claim states that `completed` and `failed` admit no outgoing
transition.  The code refutes it: `update_progress` blindly overwrites
`status`, so a `completed` tracker moves to `uploading` (and a `failed`
one back to `pending`) when a later call supplies those statuses. -/
theorem terminal_status_overwritten :
    (pCompleted.update_progress 5 (some "uploading") none 0).status = "uploading"
    ∧ (pCompleted.update_progress 5 (some "uploading") none 0).status ≠ "completed"
    ∧ (pFailed.update_progress 5 (some "pending") none 0).status = "pending" := by
  decide

/-- C2 (amended): `update_progress` is a blind overwrite, not a guarded
transition: whatever the current status — `completed` and `failed`
included — a call supplying a non-empty `status` installs it verbatim, and
the status is preserved exactly when no status (or an empty one) is
supplied. -/
theorem update_progress_status_overwrite (p : UploadProgress) (u : Nat)
    (em : Option String) (now : Int) (s : String) (hs : s ≠ "") :
    (p.update_progress u none em now).status = p.status
    ∧ (p.update_progress u (some s) em now).status = s := by
  refine ⟨?_, ?_⟩ <;> cases em <;>
    simp only [UploadProgress.update_progress, hs] <;>
    (repeat' split) <;> first | rfl | simp_all

/-- C2 (amended) witness: a `completed` tracker overwritten to `uploading`. -/
theorem update_progress_status_overwrite_witness :
    (pCompleted.update_progress 5 none none 0).status = pCompleted.status
    ∧ (pCompleted.update_progress 5 (some "uploading") none 0).status = "uploading" :=
  update_progress_status_overwrite pCompleted 5 none 0 "uploading" (by decide)

/-- C3: the claim states `progress_percentage` equals the exact-integer
`floor(100 * uploaded_size / total_size)` (clamped).  The program's IEEE
binary64 computation refutes it: at `uploaded_size = 29, total_size = 100`
the doubles give `(29/100)*100 = 28.999999999999996` and the method
returns 28, while the claimed exact floor is 29. -/
theorem progress_percentage_float_vs_floor :
    ({ pDirect with uploaded_size := 29 } : UploadProgress).progress_percentage = 28
    ∧ min 100 (100 * 29 / 100) = 29 := by
  constructor
  · decide
  · decide

/-- C3 (amended): `progress_percentage` is 0 when `total_size = 0`;
otherwise it is `min(100, int((uploaded_size/total_size) * 100))` computed
in IEEE binary64 arithmetic (`pyFloatPercent`), which is at most 100 and,
for `uploaded_size > total_size` within the `PositiveIntegerField` range,
exactly 100 — but which can report one less than the exact-integer floor
when `100·uploaded_size/total_size` is an exact integer and the rounding
lands just below it. -/
theorem progress_percentage_spec (p : UploadProgress) :
    (p.total_size = 0 → p.progress_percentage = 0)
    ∧ p.progress_percentage ≤ 100
    ∧ (p.total_size ≠ 0 →
        p.progress_percentage = min 100 (pyFloatPercent p.uploaded_size p.total_size))
    ∧ (p.total_size ≠ 0 → p.total_size < p.uploaded_size →
        p.uploaded_size < 2 ^ 31 → p.progress_percentage = 100) := by
  unfold UploadProgress.progress_percentage
  refine ⟨fun h => by simp [h], ?_, fun h => by simp [h], fun h hlt hub => ?_⟩
  · split
    · exact Nat.zero_le 100
    · exact Nat.min_le_left 100 _
  · rw [if_neg h]
    exact Nat.min_eq_left (pyFloatPercent_ge_100 _ _ h hlt hub)

/-- C3 (amended) witness: total 100, uploaded 150 reports exactly 100;
total 0 reports 0. -/
theorem progress_percentage_spec_witness :
    ({ pDirect with uploaded_size := 150 } : UploadProgress).progress_percentage = 100
    ∧ ({ pDirect with total_size := 0 } : UploadProgress).progress_percentage = 0 :=
  ⟨(progress_percentage_spec { pDirect with uploaded_size := 150 }).2.2.2
      (by decide) (by decide) (by decide),
   (progress_percentage_spec { pDirect with total_size := 0 }).1 (by decide)⟩

/-- C5: for a fixed client, progress and achievement set, a pass awards
each `(client, achievement)` pair at most once — nothing already in the
table is re-awarded and no pair is created twice — and a second pass run
over the table the first one produced creates zero new awards and leaves
the table unchanged (idempotence at the observable-state level),
whether or not the first pass aborted. -/
theorem check_achievements_idempotent (c : Nat) (pr : List ProgressRecord)
    (now : Int) (l : List ClientAchievementViewSet.AchievementRec)
    (aw : List ClientAchievementViewSet.AwardPair) :
    ClientAchievementViewSet.check_achievements c pr now l
        (ClientAchievementViewSet.check_achievements c pr now l aw).awards
      = ⟨[], (ClientAchievementViewSet.check_achievements c pr now l aw).awards,
          (ClientAchievementViewSet.check_achievements c pr now l aw).error⟩
    ∧ (ClientAchievementViewSet.check_achievements c pr now l aw).newAwards.Nodup
    ∧ ∀ p ∈ (ClientAchievementViewSet.check_achievements c pr now l aw).newAwards,
        p ∉ aw :=
  ⟨run_idempotent c pr now l aw, (run_new_fresh c pr now l aw).2,
   fun p hp => (run_new_fresh c pr now l aw).1 p hp⟩

/-- C8: the claim states every malformed criteria document is skipped with
the pass continuing.  The code refutes it: criteria that decode to a
non-object raise `AttributeError` at `criteria.get('type')`, which the
loop's `except (json.JSONDecodeError, TypeError)` does not catch — on the
batch [satisfiable, non-object criteria, satisfiable] the pass aborts with
the award table holding only the first achievement, and the third —
although satisfiable — is never evaluated or awarded. -/
theorem malformed_criteria_aborts_pass :
    ClientAchievementViewSet.check_achievements 1 [rec1] 0 batchNonDict []
      = ⟨[(1, 10)], [(1, 10)], some .attributeError⟩
    ∧ (1, 12) ∉ (ClientAchievementViewSet.check_achievements 1 [rec1] 0
        batchNonDict []).awards := by
  decide

/-- C8 (amended): only the exception classes the loop catches —
`JSONDecodeError` from a malformed criteria string, and `TypeError` — make
the pass skip that single achievement and continue: the pass over a batch
containing such an achievement equals the pass over the batch without it
(every remaining achievement is still evaluated, nothing is awarded for
the skipped one, and no exception escapes because of it); criteria that
decode to a non-object instead raise an uncaught `AttributeError` that
aborts the pass. -/
theorem caught_malformed_criteria_skipped (c : Nat) (pr : List ProgressRecord)
    (now : Int) (a : ClientAchievementViewSet.AchievementRec) (e : EvalExc)
    (h1 : ClientAchievementViewSet.evalStoredCriteria pr now a.criteria = .error e)
    (h2 : caughtByLoop e = true) :
    ∀ (xs : List ClientAchievementViewSet.AchievementRec)
      (aw : List ClientAchievementViewSet.AwardPair)
      (ys : List ClientAchievementViewSet.AchievementRec),
    ClientAchievementViewSet.check_achievements c pr now (xs ++ a :: ys) aw
      = ClientAchievementViewSet.check_achievements c pr now (xs ++ ys) aw := by
  intro xs
  induction xs with
  | nil =>
    intro aw ys
    simp only [List.nil_append, ClientAchievementViewSet.check_achievements]
    by_cases hex : ClientAchievementViewSet.awardExists aw c a.id = true
    · rw [if_pos hex]
    · rw [if_neg hex, h1]
      dsimp only
      rw [if_pos h2]
  | cons x xs ih =>
    intro aw ys
    simp only [List.cons_append, ClientAchievementViewSet.check_achievements,
      List.append_eq, ih]

/-- C8 (amended) witness: a criteria string failing `json.loads` is
skipped and the rest of the batch evaluated as if it were absent. -/
theorem caught_malformed_criteria_skipped_witness :
    ClientAchievementViewSet.check_achievements 1 [rec1] 0 ([] ++ achBadStr :: [achGood]) []
      = ClientAchievementViewSet.check_achievements 1 [rec1] 0 ([] ++ [achGood]) [] :=
  caught_malformed_criteria_skipped 1 [rec1] 0 achBadStr .jsonDecodeError rfl rfl [] [] [achGood]

/-- C7: with `time_period = "week"` the duration evaluator sums
`duration_seconds` exactly over the records whose `completed_at` lies in
the trailing 7 days (inclusive threshold `sum ≥ required_duration`), and a
record completed exactly 8 days before the evaluation time contributes
nothing: prepending it leaves the verdict unchanged. -/
theorem duration_week_window (progress : List ProgressRecord) (now : Int)
    (rq : Nat) (r : ProgressRecord) (h8 : r.completed_at = now - 8 * 86400) :
    ClientAchievementViewSet.check_duration progress now (weekDoc rq)
      = decide (ClientAchievementViewSet.sumDuration
          (progress.filter (fun x => x.completed_at ≥ now - 7 * 86400)) ≥ rq)
    ∧ ClientAchievementViewSet.check_duration (r :: progress) now (weekDoc rq)
      = ClientAchievementViewSet.check_duration progress now (weekDoc rq) := by
  have hout : ¬ (r.completed_at ≥ now - 7 * 86400) := by rw [h8]; omega
  refine ⟨rfl, ?_⟩
  simp only [ClientAchievementViewSet.check_duration, weekDoc, CriteriaDoc.empty,
    Option.getD_some, List.filter_cons, hout, decide_eq_true_eq, if_neg]
  simp [hout]

/-- C7 witness: at `now = 0` a single record 8 days old yields the same
verdict as no records at all. -/
theorem duration_week_window_witness :
    ClientAchievementViewSet.check_duration [] 0 (weekDoc 1)
      = decide (ClientAchievementViewSet.sumDuration
          (List.filter (fun x => x.completed_at ≥ 0 - 7 * 86400) []) ≥ 1)
    ∧ ClientAchievementViewSet.check_duration
        [(⟨none, none, none, 0 - 8 * 86400, 60, none⟩ : ProgressRecord)] 0 (weekDoc 1)
      = ClientAchievementViewSet.check_duration [] 0 (weekDoc 1) :=
  duration_week_window [] 0 1 ⟨none, none, none, 0 - 8 * 86400, 60, none⟩ rfl

/-- C10: the public update-progress endpoint (existing row, as found for
the caller) never resets `uploaded_size` through an absent or zero
request value — the stored value is kept — while a non-zero value
overwrites it. -/
theorem update_progress_view_keeps_size (p : UploadProgress)
    (us : Option Nat) (st em : Option String) (now : Int) :
    ∃ q, MediaAssetViewSet.update_progress p us st em now = .ok q
      ∧ ((us = none ∨ us = some 0) → q.uploaded_size = p.uploaded_size)
      ∧ (∀ n, us = some n → n ≠ 0 → q.uploaded_size = n) := by
  refine ⟨_, rfl, ?_, ?_⟩
  · rintro (rfl | rfl) <;>
      simp [MediaAssetViewSet.update_progress, callUpdateProgress,
        update_progress_uploaded_size]
  · rintro n rfl hn
    match n, hn with
    | Nat.succ k, _ =>
      simp [MediaAssetViewSet.update_progress, callUpdateProgress,
        update_progress_uploaded_size]

/-- C10 witness: a zero request value keeps the stored 42 bytes; a
non-zero request value installs itself. -/
theorem update_progress_view_keeps_size_witness :
    (∃ q, MediaAssetViewSet.update_progress
        { pDirect with uploaded_size := 42 } (some 0) none none 0 = .ok q
      ∧ q.uploaded_size = 42)
    ∧ (∃ q, MediaAssetViewSet.update_progress
        { pDirect with uploaded_size := 42 } (some 7) none none 0 = .ok q
      ∧ q.uploaded_size = 7) := by
  refine ⟨?_, ?_⟩
  · obtain ⟨q, h1, h2, -⟩ :=
      update_progress_view_keeps_size { pDirect with uploaded_size := 42 } (some 0) none none 0
    exact ⟨q, h1, h2 (Or.inr rfl)⟩
  · obtain ⟨q, h1, -, h3⟩ :=
      update_progress_view_keeps_size { pDirect with uploaded_size := 42 } (some 7) none none 0
    exact ⟨q, h1, h3 7 rfl (by decide)⟩

/-- C1: the claim states a `MediaAssetRecord` exists only if its
`UploadProgress` tracker reached `completed`.  The code violates it on both
paths: after creating the asset, `verify_upload` calls
`progress.update_progress(status='completed', file_path=file_path)` — an
unexpected keyword plus a missing required `uploaded_size` — which raises
`TypeError` before the tracker can move, and the `except` handler's own
`update_progress` call raises the same way; the asset row persists while
the tracker stays in `verifying` (direct path) / `uploading` (traditional
path) with `completed_at` unset. -/
theorem media_asset_without_completed_tracker :
    (MediaAssetViewSet.verify_upload envOk noCaps pDirect "u1" "7/image/a.png" 7 1000).created.length = 1
    ∧ (MediaAssetViewSet.verify_upload envOk noCaps pDirect "u1" "7/image/a.png" 7 1000).progress.status = "verifying"
    ∧ (MediaAssetViewSet.verify_upload envOk noCaps pDirect "u1" "7/image/a.png" 7 1000).progress.completed_at = none
    ∧ (MediaAssetViewSet.verify_upload envOk noCaps pDirect "u1" "7/image/a.png" 7 1000).outcome
        = .unhandled (.typeError "update_progress missing required argument uploaded_size")
    ∧ (MediaAssetViewSet.perform_create envOk noCaps "u2" "b.png" 100 100 7 "image" "ts" 1000).created.length = 1
    ∧ (MediaAssetViewSet.perform_create envOk noCaps "u2" "b.png" 100 100 7 "image" "ts" 1000).progress.status = "uploading"
    ∧ (MediaAssetViewSet.perform_create envOk noCaps "u2" "b.png" 100 100 7 "image" "ts" 1000).progress.completed_at = none := by
  decide

/-- C6: a `file_path` not prefixed by `"<owner_id>/"` makes storage-level
verification return failure no matter how the storage collaborator
behaves (the prefix check precedes every storage call), and no
`MediaAsset` is created; but the claimed move of the tracker to `failed`
does not happen — the view's `update_progress(status='failed', ...)` call
omits the required `uploaded_size` and raises `TypeError`, leaving the
tracker in `verifying` and the request with an unhandled exception. -/
theorem verify_upload_rejects_foreign_path :
    (∀ (env : StorageEnv) (uid fp : String) (iid : Nat) (now : Int),
      pyStartswith fp (toString iid ++ "/") = false →
      SupabaseStorage.verify_upload env uid fp iid now = (false, none))
    ∧ (MediaAssetViewSet.verify_upload envOk noCaps pDirect "u6" "9/image/x.png" 7 0).created = []
    ∧ (MediaAssetViewSet.verify_upload envOk noCaps pDirect "u6" "9/image/x.png" 7 0).progress.status = "verifying"
    ∧ (MediaAssetViewSet.verify_upload envOk noCaps pDirect "u6" "9/image/x.png" 7 0).outcome
        = .unhandled (.typeError "update_progress missing required argument uploaded_size") := by
  refine ⟨?_, by decide, by decide, by decide⟩
  intro env uid fp iid now h
  simp [SupabaseStorage.verify_upload, h]

/-- C6 witness: a path owned by instructor 9 is rejected for instructor 7
even against a storage collaborator on which every call succeeds. -/
theorem verify_upload_rejects_foreign_path_witness :
    SupabaseStorage.verify_upload envOk "u" "9/image/x.png" 7 0 = (false, none) :=
  verify_upload_rejects_foreign_path.1 envOk "u" "9/image/x.png" 7 0 (by decide)

/-- C9: the claim states every exception met while creating the asset or
contacting storage is recorded into the tracker as `failed` (with the
error text) before the error surfaces.  The code violates it: the
`except` handlers call `update_progress(status='failed',
error_message=str(e))` without the required `uploaded_size` argument, so
the handler itself raises `TypeError` — the tracker keeps its pre-error
status (`uploading` on the traditional path, `verifying` on the
direct-upload path) with no error text, and the surfaced error is the
handler's `TypeError` instead of the original exception or the crafted
5xx response. -/
theorem exception_handler_fails_tracker_update :
    (MediaAssetViewSet.perform_create envBoom noCaps "u3" "c.mp3" 50 50 4 "audio" "ts" 5).created = []
    ∧ (MediaAssetViewSet.perform_create envBoom noCaps "u3" "c.mp3" 50 50 4 "audio" "ts" 5).progress.status = "uploading"
    ∧ (MediaAssetViewSet.perform_create envBoom noCaps "u3" "c.mp3" 50 50 4 "audio" "ts" 5).progress.error_message = none
    ∧ (MediaAssetViewSet.perform_create envBoom noCaps "u3" "c.mp3" 50 50 4 "audio" "ts" 5).outcome
        = .unhandled (.typeError "update_progress missing required argument uploaded_size")
    ∧ (MediaAssetViewSet.verify_upload envGetBoom noCaps pDirect "u7" "7/image/a.png" 7 0).created = []
    ∧ (MediaAssetViewSet.verify_upload envGetBoom noCaps pDirect "u7" "7/image/a.png" 7 0).progress.status = "verifying"
    ∧ (MediaAssetViewSet.verify_upload envGetBoom noCaps pDirect "u7" "7/image/a.png" 7 0).progress.error_message = none
    ∧ (MediaAssetViewSet.verify_upload envGetBoom noCaps pDirect "u7" "7/image/a.png" 7 0).outcome
        = .unhandled (.typeError "update_progress missing required argument uploaded_size") := by
  decide

end ArtOfYoga
